import Mathlib

set_option autoImplicit false

/-
Verification development for the pysignalr client library.

The Python source is shallowly embedded: Python dicts become insertion-ordered
association lists, dataclass instances become a class tag plus an attribute
dict, raising code returns Except values, and the third-party byte-level
serializers (orjson text rendering, msgpack binary packing) are treated as a
transparent bijection between a frame and its bytes, so a frame is modelled by
the dict (JSON) or value array (MessagePack) that the library hands to them.
-/

namespace PySignalR

/-- JSON-like values: the payloads stored in message attributes and frames.
Objects nested below the top level never need inspection in the modelled code
paths, so arrays of values suffice as the only container. -/
inductive JVal where
  | null
  | bool (b : Bool)
  | num (n : Int)
  | str (s : String)
  | arr (elems : List JVal)

mutual

def JVal.deq : (a b : JVal) → Decidable (a = b)
  | .null, .null => isTrue rfl
  | .null, .bool _ => isFalse (fun h => JVal.noConfusion h)
  | .null, .num _ => isFalse (fun h => JVal.noConfusion h)
  | .null, .str _ => isFalse (fun h => JVal.noConfusion h)
  | .null, .arr _ => isFalse (fun h => JVal.noConfusion h)
  | .bool _, .null => isFalse (fun h => JVal.noConfusion h)
  | .bool a, .bool b =>
      match decEq a b with
      | isTrue h => isTrue (by rw [h])
      | isFalse h => isFalse (fun he => h (by injection he))
  | .bool _, .num _ => isFalse (fun h => JVal.noConfusion h)
  | .bool _, .str _ => isFalse (fun h => JVal.noConfusion h)
  | .bool _, .arr _ => isFalse (fun h => JVal.noConfusion h)
  | .num _, .null => isFalse (fun h => JVal.noConfusion h)
  | .num _, .bool _ => isFalse (fun h => JVal.noConfusion h)
  | .num a, .num b =>
      match decEq a b with
      | isTrue h => isTrue (by rw [h])
      | isFalse h => isFalse (fun he => h (by injection he))
  | .num _, .str _ => isFalse (fun h => JVal.noConfusion h)
  | .num _, .arr _ => isFalse (fun h => JVal.noConfusion h)
  | .str _, .null => isFalse (fun h => JVal.noConfusion h)
  | .str _, .bool _ => isFalse (fun h => JVal.noConfusion h)
  | .str _, .num _ => isFalse (fun h => JVal.noConfusion h)
  | .str a, .str b =>
      match decEq a b with
      | isTrue h => isTrue (by rw [h])
      | isFalse h => isFalse (fun he => h (by injection he))
  | .str _, .arr _ => isFalse (fun h => JVal.noConfusion h)
  | .arr _, .null => isFalse (fun h => JVal.noConfusion h)
  | .arr _, .bool _ => isFalse (fun h => JVal.noConfusion h)
  | .arr _, .num _ => isFalse (fun h => JVal.noConfusion h)
  | .arr _, .str _ => isFalse (fun h => JVal.noConfusion h)
  | .arr xs, .arr ys =>
      match JVal.deqList xs ys with
      | isTrue h => isTrue (by rw [h])
      | isFalse h => isFalse (fun he => h (by injection he))

def JVal.deqList : (xs ys : List JVal) → Decidable (xs = ys)
  | [], [] => isTrue rfl
  | [], _ :: _ => isFalse (fun h => List.noConfusion h)
  | _ :: _, [] => isFalse (fun h => List.noConfusion h)
  | x :: xs, y :: ys =>
      match JVal.deq x y, JVal.deqList xs ys with
      | isTrue h₁, isTrue h₂ => isTrue (by rw [h₁, h₂])
      | isFalse h₁, _ => isFalse (fun he => h₁ (by injection he))
      | isTrue _, isFalse h₂ => isFalse (fun he => h₂ (by injection he))

end

instance : DecidableEq JVal := JVal.deq

/-- Insertion-ordered association list standing for a Python dict. -/
abbrev Dict (β : Type) := List (String × β)

namespace Dict

variable {β : Type}

/-- Python d.get(k) / membership: first (only) binding of the key. -/
def find (d : Dict β) (k : String) : Option β :=
  match d with
  | [] => none
  | (k₁, v) :: rest => if k₁ = k then some v else find rest k

/-- Python d.pop(k, default): removes the binding, keeping the order of the
remaining entries, and returns the removed value when present. -/
def pop (d : Dict β) (k : String) : Option β × Dict β :=
  match d with
  | [] => (none, [])
  | (k₁, v) :: rest =>
      if k₁ = k then (some v, rest)
      else
        let r := pop rest k
        (r.1, (k₁, v) :: r.2)

/-- Python d[k] = v: replaces the value in place when the key exists,
otherwise appends a new binding at the end. -/
def set (d : Dict β) (k : String) (v : β) : Dict β :=
  match d with
  | [] => [(k, v)]
  | (k₁, v₁) :: rest =>
      if k₁ = k then (k, v) :: rest else (k₁, v₁) :: set rest k v

end Dict

/-- Python exceptions that the modelled code can raise. -/
inductive PyErr where
  | attributeError
  | typeError
  | indexError
  | keyError
  | valueError
  | notImplementedError
  | runtimeError (msg : String)
  | nameError (name : String)
  deriving DecidableEq

/-- The concrete Message dataclasses of pysignalr.messages. -/
inductive MsgClass where
  | invocationMessage
  | invocationClientStreamMessage
  | streamItemMessage
  | completionClientStreamMessage
  | completionMessage
  | streamInvocationMessage
  | cancelInvocationMessage
  | pingMessage
  | closeMessage
  deriving DecidableEq

namespace MsgClass

/-- Wire tag of each class: the MessageType value bound by __init_subclass__. -/
def tag : MsgClass → Int
  | invocationMessage => 1
  | invocationClientStreamMessage => 1
  | streamItemMessage => 2
  | completionClientStreamMessage => 2
  | completionMessage => 3
  | streamInvocationMessage => 4
  | cancelInvocationMessage => 5
  | pingMessage => 6
  | closeMessage => 7

end MsgClass

/-- A Python message object: its dataclass plus its instance dict, whose
binding order is observable (it is what orjson serializes). -/
structure PyObj where
  cls : MsgClass
  attrs : Dict JVal
  deriving DecidableEq

/-- A message as constructed through the public dataclass constructors, with
each Python-side value embedded as a JVal (None becomes JVal.null). -/
inductive Msg where
  | invocationMessage (invocation_id : String) (target : String) (arguments : JVal) (headers : JVal)
  | invocationClientStreamMessage (stream_ids : List String) (target : String) (arguments : JVal) (headers : JVal)
  | streamItemMessage (invocation_id : String) (item : JVal) (headers : JVal)
  | completionClientStreamMessage (invocation_id : String) (headers : JVal)
  | completionMessage (invocation_id : String) (result : JVal) (error : JVal) (headers : JVal)
  | streamInvocationMessage (invocation_id : String) (target : String) (arguments : JVal) (headers : JVal)
  | cancelInvocationMessage (invocation_id : String) (headers : JVal)
  | pingMessage
  | closeMessage (error : JVal) (allow_reconnect : JVal) (headers : JVal)
  deriving DecidableEq

namespace Msg

/-- The freshly constructed object: instance dict holds the fields in
dataclass declaration order. -/
def toObj : Msg → PyObj
  | invocationMessage i t a h =>
      ⟨.invocationMessage, [("invocation_id", .str i), ("target", .str t), ("arguments", a), ("headers", h)]⟩
  | invocationClientStreamMessage s t a h =>
      ⟨.invocationClientStreamMessage,
        [("stream_ids", .arr (s.map .str)), ("target", .str t), ("arguments", a), ("headers", h)]⟩
  | streamItemMessage i it h =>
      ⟨.streamItemMessage, [("invocation_id", .str i), ("item", it), ("headers", h)]⟩
  | completionClientStreamMessage i h =>
      ⟨.completionClientStreamMessage, [("invocation_id", .str i), ("headers", h)]⟩
  | completionMessage i r e h =>
      ⟨.completionMessage, [("invocation_id", .str i), ("result", r), ("error", e), ("headers", h)]⟩
  | streamInvocationMessage i t a h =>
      ⟨.streamInvocationMessage, [("invocation_id", .str i), ("target", .str t), ("arguments", a), ("headers", h)]⟩
  | cancelInvocationMessage i h =>
      ⟨.cancelInvocationMessage, [("invocation_id", .str i), ("headers", h)]⟩
  | pingMessage => ⟨.pingMessage, []⟩
  | closeMessage e ar h =>
      ⟨.closeMessage, [("error", e), ("allow_reconnect", ar), ("headers", h)]⟩

end Msg

/-- Message.dump from pysignalr.messages: data is the instance dict itself, so
the pops mutate the object. Returns the object after the call together with
the dict handed to the serializer; the two alias the same storage. -/
def Message.dump (o : PyObj) : PyObj × Dict JVal :=
  let p₁ := Dict.pop o.attrs "invocation_id"
  let p₂ := Dict.pop p₁.2 "stream_ids"
  let d₁ := Dict.set p₂.2 "type" (.num o.cls.tag)
  let d₂ := match p₁.1 with
    | some v => if v ≠ .null then Dict.set d₁ "invocationId" v else d₁
    | none => d₁
  let d₃ := match p₂.1 with
    | some v => if v ≠ .null then Dict.set d₂ "streamIds" v else d₂
    | none => d₂
  (⟨o.cls, d₃⟩, d₃)

/-- Closed form, written from the amended serialization claim, of the frame
Message.dump produces for each constructor: every field other than
invocation_id and stream_ids keeps its binding and its value, null included,
followed by the type tag; invocation_id and stream_ids alone are dropped,
reappearing camelCased only because the typed constructors never leave them
unset. Compared against Message.dump itself in the C3 theorem. -/
def dumpFrameSpec : Msg → Dict JVal
  | .invocationMessage i t a h =>
      [("target", .str t), ("arguments", a), ("headers", h),
       ("type", .num 1), ("invocationId", .str i)]
  | .invocationClientStreamMessage s t a h =>
      [("target", .str t), ("arguments", a), ("headers", h),
       ("type", .num 1), ("streamIds", .arr (s.map .str))]
  | .streamItemMessage i it h =>
      [("item", it), ("headers", h), ("type", .num 2), ("invocationId", .str i)]
  | .completionClientStreamMessage i h =>
      [("headers", h), ("type", .num 2), ("invocationId", .str i)]
  | .completionMessage i r e h =>
      [("result", r), ("error", e), ("headers", h),
       ("type", .num 3), ("invocationId", .str i)]
  | .streamInvocationMessage i t a h =>
      [("target", .str t), ("arguments", a), ("headers", h),
       ("type", .num 4), ("invocationId", .str i)]
  | .cancelInvocationMessage i h =>
      [("headers", h), ("type", .num 5), ("invocationId", .str i)]
  | .pingMessage => [("type", .num 6)]
  | .closeMessage e ar h =>
      [("error", e), ("allow_reconnect", ar), ("headers", h), ("type", .num 7)]

namespace JSONProtocol

end JSONProtocol

namespace MessagepackProtocol

end MessagepackProtocol

/-- The connection states of transport.abstract.ConnectionState. -/
inductive ConnectionState where
  | connecting
  | connected
  | reconnecting
  | disconnected
  deriving DecidableEq

namespace WebsocketTransport

/-- WebsocketTransport._set_state: argument state against the current
self._state. Event and callback side effects are not observable here; the
result is the state stored afterwards, or the exception raised. -/
def set_state (old_state state : ConnectionState) : Except PyErr ConnectionState :=
  if state = old_state then .ok old_state
  else if state = .connecting then
    if old_state ≠ .disconnected then
      .error (.runtimeError "Cannot connect while not disconnected")
    else .ok state
  else if state = .connected then
    if old_state ≠ .connecting ∧ old_state ≠ .reconnecting then
      .error (.runtimeError "Cannot connect while not connecting or reconnecting")
    else .ok state
  else if state = .reconnecting ∨ state = .disconnected then
    .ok state
  else
    .error .notImplementedError

end WebsocketTransport

/-- The transition edges of the state graph in section 4.4 of the spec. -/
def specEdge : ConnectionState → ConnectionState → Bool
  | .disconnected, .connecting => true
  | .connecting, .connected => true
  | .connecting, .reconnecting => true
  | .connected, .reconnecting => true
  | .reconnecting, .connecting => true
  | _, .disconnected => true
  | _, _ => false

/-- Exception classes raised by the transport layer: the HubError hierarchy
of pysignalr.exceptions, the negotiation exceptions of the package root, and
the builtin NameError. The diagnostic payload of ServerError is not needed by
any claim and is not modelled. -/
inductive TransErr where
  | authorizationError
  | connectionError (status : Int)
  | serverError
  | negotiationTimeout
  | negotiationNotfound
  | negotiationFailure
  | nameError (name : String)
  deriving DecidableEq

/-- The exception classes caught by the except clause in run(). -/
def isNegotiationErr : TransErr → Bool
  | .negotiationTimeout => true
  | .negotiationNotfound => true
  | .negotiationFailure => true
  | _ => false

/-- Python truthiness of a value, as used on negotiate response fields and on
the error field of a Completion. -/
def pyTruthy : JVal → Bool
  | .null => false
  | .bool b => b
  | .num n => n ≠ 0
  | .str s => s ≠ ""
  | .arr xs => xs ≠ []

/-- Module-level names bound in pysignalr.transport.websocket. The keyword
default retry_sleep=DEFAULT_RETRY_SLEEP in the constructor refers to a name
that is not among them, so importing the module raises NameError; the
matching defined constant is DEFAULT_RETRY_WAIT. -/
def websocketModuleConstants : Dict Int :=
  [("DEFAULT_MAX_SIZE", 2 ^ 20), ("DEFAULT_PING_INTERVAL", 10),
   ("DEFAULT_CONNECTION_TIMEOUT", 10), ("DEFAULT_RETRY_WAIT", 1),
   ("DEFAULT_RETRY_COUNT", 10)]

/-- Default multiplier for the negotiation retry delay (1.1 as a rational). -/
def DEFAULT_RETRY_MULTIPLIER : ℚ := 11 / 10

namespace WebsocketTransport

/-- The body of the negotiate-failure except branch of run(), entered after
_loop raised the negotiation error e: the state is set to disconnected; with
the budget exhausted e is re-raised; otherwise the budget is decremented, the
delay is multiplied, and the next statement evaluates the unbound name
self_retry_sleep, so the branch raises NameError instead of sleeping. The
result is the exception leaving run() and the final connection state. -/
def run_on_negotiation_failure (retry_count : Int) (e : TransErr) :
    TransErr × ConnectionState :=
  if retry_count ≤ 0 then (e, .disconnected)
  else (.nameError "self_retry_sleep", .disconnected)

/-- Action taken by _negotiate on a 200 response body. -/
inductive NegotiateAct where
  | rewriteUrl (connection_id : JVal)
  | azure (url : JVal) (access_token : JVal)
  deriving DecidableEq

/-- WebsocketTransport._negotiate, given the status and JSON body of the
negotiate POST response. -/
def negotiate (status : Int) (body : Dict JVal) : Except TransErr NegotiateAct :=
  if status = 200 then
    let connection_id := (Dict.find body "connectionId").getD .null
    let url := (Dict.find body "url").getD .null
    let access_token := (Dict.find body "accessToken").getD .null
    if pyTruthy connection_id then .ok (.rewriteUrl connection_id)
    else if pyTruthy url ∧ pyTruthy access_token then .ok (.azure url access_token)
    else .error .serverError
  else if status = 401 then .error .authorizationError
  else .error (.connectionError status)

/-- The negotiate phase of _loop: the state has been set to connecting; on a
negotiate failure the websocket connect that follows is never reached and the
exception propagates (the clause translating ServerConnectionError into
NegotiationTimeout does not match a HubError). The Bool records whether the
websocket connect call was reached. -/
def loop_negotiate_phase (status : Int) (body : Dict JVal) :
    Except TransErr NegotiateAct × Bool :=
  match negotiate status body with
  | .error e => (.error e, false)
  | .ok a => (.ok a, true)

/-- One iteration of run() up to and including the handling of a negotiate
failure: negotiation errors enter the retry branch, every other exception
propagates to the caller of run(). The Bool records whether a websocket was
opened. -/
def run_negotiate_once (status : Int) (body : Dict JVal) (retry_count : Int) :
    Except TransErr NegotiateAct × Bool :=
  match loop_negotiate_phase status body with
  | (.error e, opened) =>
      if isNegotiationErr e then
        (.error (run_on_negotiation_failure retry_count e).1, opened)
      else (.error e, opened)
  | (.ok a, opened) => (.ok a, opened)

end WebsocketTransport

namespace SignalRClient

/-- Truthiness of the error attribute of a Completion message. -/
def errTruthy : Option String → Bool
  | none => false
  | some s => s ≠ ""

/-- The parts of a CompletionMessage consulted by the completion dispatcher. -/
structure CompletionData where
  invocation_id : String
  error : Option String

/-- SignalRClient.send: mints invocation_id and records on_invocation in the
pending-invocations dict before transmitting. -/
def send_register {α : Type} (invocation_handlers : Dict (Option α))
    (invocation_id : String) (on_invocation : Option α) : Dict (Option α) :=
  Dict.set invocation_handlers invocation_id on_invocation

/-- SignalRClient._on_completion_message: a truthy error requires the error
sink and invokes it; then the pending-invocations dict is popped without a
default (KeyError when the id is absent) and the popped callback, when not
None, is invoked. Returns the dict afterwards and the callbacks invoked in
order. -/
def on_completion_message {α : Type} (error_callback : Option α)
    (invocation_handlers : Dict (Option α)) (msg : CompletionData) :
    Except PyErr (Dict (Option α) × List α) := do
  let calls₀ ←
    if errTruthy msg.error then
      match error_callback with
      | none => throw (.runtimeError "Error callback is not set")
      | some cb => pure [cb]
    else pure ([] : List α)
  let p := Dict.pop invocation_handlers msg.invocation_id
  match p.1 with
  | none => throw .keyError
  | some cb? =>
      match cb? with
      | some cb => pure (p.2, calls₀ ++ [cb])
      | none => pure (p.2, calls₀)

/-- Reading event handlers out of the defaultdict(list) table. -/
def handlersFor {α : Type} (t : Dict (List (Option α))) (event : String) :
    List (Option α) :=
  (Dict.find t event).getD []

/-- SignalRClient.on: append the callback to the defaultdict(list) entry. -/
def on_register {α : Type} (t : Dict (List (Option α))) (event : String)
    (callback : α) : Dict (List (Option α)) :=
  Dict.set t event (handlersFor t event ++ [some callback])

/-- SignalRClient._on_invocation_message: every non-None handler registered
under the target is awaited with the argument list, in list order. Returns
the calls made, as handler-argument pairs in order. -/
def on_invocation_message {α : Type} (t : Dict (List (Option α)))
    (target : String) (arguments : JVal) : List (α × JVal) :=
  (handlersFor t target).filterMap fun cb? => cb?.map (fun cb => (cb, arguments))

/-- SignalRClient._on_stream_item_message: the stream-handler triple is read
by plain subscription, so an unknown invocation_id raises KeyError; otherwise
the on_next callback, when set, is invoked with the item. -/
def on_stream_item_message {α : Type}
    (stream_handlers : Dict (Option α × Option α × Option α))
    (invocation_id : String) (item : JVal) : Except PyErr (List (α × JVal)) :=
  match Dict.find stream_handlers invocation_id with
  | none => .error .keyError
  | some h => .ok (match h.1 with | some cb => [(cb, item)] | none => [])

/-- SignalRClient._on_cancel_invocation_message: same plain subscription, and
the on_error callback, when set, is invoked with the message. -/
def on_cancel_invocation_message {α : Type}
    (stream_handlers : Dict (Option α × Option α × Option α))
    (invocation_id : String) : Except PyErr (List α) :=
  match Dict.find stream_handlers invocation_id with
  | none => .error .keyError
  | some h => .ok (match h.2.2 with | some cb => [cb] | none => [])

end SignalRClient

/-- Split a character list at the first occurrence of sep, dropping it. -/
def splitFirst (sep : Char) : List Char → Option (List Char × List Char)
  | [] => none
  | c :: cs =>
      if c = sep then some ([], cs)
      else (splitFirst sep cs).map (fun p => (c :: p.1, p.2))

/-- Split a character list at every occurrence of sep (str.split semantics:
n separators yield n+1 pieces). -/
def splitAll (sep : Char) : List Char → List (List Char)
  | [] => [[]]
  | c :: cs =>
      if c = sep then [] :: splitAll sep cs
      else
        match splitAll sep cs with
        | [] => [[c]]
        | p :: ps => (c :: p) :: ps

/-- Take characters up to (excluding) the first stop character, returning the
prefix and the remainder starting at the stop character. -/
def takeUntilAny (stop : List Char) : List Char → List Char × List Char
  | [] => ([], [])
  | c :: cs =>
      if stop.contains c then ([], c :: cs)
      else
        let r := takeUntilAny stop cs
        (c :: r.1, r.2)

/-- Characters permitted in a URL scheme after the initial letter. -/
def isSchemeChar (c : Char) : Bool :=
  c.isAlphanum || c = '+' || c = '-' || c = '.'

/-- The five components returned by urllib.parse.urlsplit. -/
structure SplitResult where
  scheme : String
  netloc : String
  path : String
  query : String
  fragment : String
  deriving DecidableEq

/-- Model of urllib.parse.urlsplit on ASCII URLs: an initial alphabetic
scheme up to the first colon is lowered and stripped, a leading double slash
starts the netloc (ending at a slash, question mark or hash), then the
fragment is split off at the first hash and the query at the first question
mark. -/
def urlsplit (url : String) : SplitResult :=
  let cs := url.toList
  let p₁ :=
    match splitFirst ':' cs with
    | some (pre, post) =>
        if pre ≠ [] ∧ (pre.headD 'a').isAlpha ∧ pre.all isSchemeChar
        then (pre.map Char.toLower, post)
        else (([] : List Char), cs)
    | none => (([] : List Char), cs)
  let p₂ :=
    match p₁.2 with
    | '/' :: '/' :: r => takeUntilAny ['/', '?', '#'] r
    | r => (([] : List Char), r)
  let p₃ :=
    match splitFirst '#' p₂.2 with
    | some q => q
    | none => (p₂.2, [])
  let p₄ :=
    match splitFirst '?' p₃.1 with
    | some q => q
    | none => (p₃.1, [])
  ⟨⟨p₁.1⟩, ⟨p₂.1⟩, ⟨p₄.1⟩, ⟨p₄.2⟩, ⟨p₃.2⟩⟩

/-- Model of urllib.parse.urlunsplit. -/
def urlunsplit (r : SplitResult) : String :=
  let url := r.path
  let url :=
    if r.netloc ≠ "" ∨ url.toList.take 2 = ['/', '/']
    then "//" ++ r.netloc ++ url else url
  let url := if r.scheme ≠ "" then r.scheme ++ ":" ++ url else url
  let url := if r.query ≠ "" then url ++ "?" ++ r.query else url
  if r.fragment ≠ "" then url ++ "#" ++ r.fragment else url

/-- Plus-to-space decoding of urllib.parse.unquote_plus; percent escapes are
outside the modelled input space and pass through literally. -/
def unquote_plus (cs : List Char) : List Char :=
  cs.map fun c => if c = '+' then ' ' else c

/-- Model of urllib.parse.parse_qsl with default arguments: split the query
on ampersands, skip empty chunks, skip chunks without an equals sign, skip
pairs whose value is empty (keep_blank_values is false), and decode. -/
def parse_qsl (qs : String) : List (String × String) :=
  (splitAll '&' qs.toList).filterMap fun chunk =>
    if chunk = [] then none
    else
      match splitFirst '=' chunk with
      | none => none
      | some (n, v) =>
          if v = [] then none
          else some (⟨unquote_plus n⟩, ⟨unquote_plus v⟩)

/-- Model of urllib.parse.parse_qs: group the pair list into a dict of value
lists, in first-occurrence key order. -/
def parse_qs (qs : String) : Dict (List String) :=
  (parse_qsl qs).foldl
    (fun d p =>
      match Dict.find d p.1 with
      | some vs => Dict.set d p.1 (vs ++ [p.2])
      | none => Dict.set d p.1 [p.2])
    []

/-- Characters that urllib.parse.quote never escapes. -/
def alwaysSafe (c : Char) : Bool :=
  c.isAlphanum || c = '_' || c = '.' || c = '-' || c = '~'

/-- Uppercase hexadecimal digit. -/
def hexDigit (n : Nat) : Char :=
  if n < 10 then Char.ofNat ('0'.toNat + n) else Char.ofNat ('A'.toNat + n - 10)

/-- Model of urllib.parse.quote_plus on ASCII text: safe characters pass
through, a space becomes a plus, anything else is percent-encoded. -/
def quote_plus (s : String) : String :=
  ⟨s.toList.foldr
    (fun c acc =>
      (if alwaysSafe c then [c]
       else if c = ' ' then ['+']
       else ['%', hexDigit (c.toNat / 16 % 16), hexDigit (c.toNat % 16)]) ++ acc)
    []⟩

/-- Join strings with a separator (str.join semantics). -/
def joinSep (sep : String) : List String → String
  | [] => ""
  | [x] => x
  | x :: xs => x ++ sep ++ joinSep sep xs

/-- Model of urllib.parse.urlencode with doseq=True on a parse_qs-style dict:
one key=value item per list element, joined with ampersands. -/
def urlencode_doseq (q : Dict (List String)) : String :=
  joinSep "&"
    ((q.map fun kv => kv.2.map fun v => quote_plus kv.1 ++ "=" ++ quote_plus v).flatten)

/-- Scheme coercion table http_to_ws of pysignalr.utils. -/
def http_to_ws (scheme : String) : Option String :=
  if scheme = "http" then some "ws"
  else if scheme = "https" then some "wss"
  else none

/-- The component-level body of get_connection_url: the parsed query with the
id key overwritten by the given sequence, re-encoded, and the scheme mapped
through http_to_ws when it is a key of that table (KeyError suppressed). -/
def get_connection_url_split (r : SplitResult) (id : List String) : SplitResult :=
  let parsed_query := Dict.set (parse_qs r.query) "id" id
  ⟨(http_to_ws r.scheme).getD r.scheme, r.netloc, r.path,
    urlencode_doseq parsed_query, r.fragment⟩

/-- pysignalr.utils.get_connection_url. -/
def get_connection_url (url : String) (id : List String) : String :=
  urlunsplit (get_connection_url_split (urlsplit url) id)

/-- Plain ampersand-joined rendering of a query pair list, used to state
properties of get_connection_url on escaping-free queries. -/
def plainQuery (ps : List (String × String)) : String :=
  joinSep "&" (ps.map fun p => p.1 ++ "=" ++ p.2)

/-- A non-empty string of characters that URL quoting leaves untouched. -/
def benignStr (s : String) : Prop :=
  s ≠ "" ∧ ∀ c ∈ s.data, alwaysSafe c = true

instance (s : String) : Decidable (benignStr s) := by
  unfold benignStr; infer_instance

instance {ε α : Type} [DecidableEq ε] [DecidableEq α] : DecidableEq (Except ε α) := by
  intro a b
  cases a <;> cases b <;> first
    | exact isFalse (fun h => Except.noConfusion h)
    | exact decidable_of_iff _ (by rw [Except.error.injEq])
    | exact decidable_of_iff _ (by rw [Except.ok.injEq])

theorem Dict.find_none_pop {β : Type} (d : Dict β) (k : String)
    (h : Dict.find d k = none) : Dict.pop d k = (none, d) := by
  induction d with
  | nil => rfl
  | cons p rest ih =>
      obtain ⟨k₁, v⟩ := p
      by_cases hk : k₁ = k
      · simp [Dict.find, hk] at h
      · simp [Dict.find, hk] at h
        simp [Dict.pop, hk, ih h]

theorem Dict.find_none_set {β : Type} (d : Dict β) (k : String) (v : β)
    (h : Dict.find d k = none) : Dict.set d k v = d ++ [(k, v)] := by
  induction d with
  | nil => rfl
  | cons p rest ih =>
      obtain ⟨k₁, v₁⟩ := p
      by_cases hk : k₁ = k
      · simp [Dict.find, hk] at h
      · simp [Dict.find, hk] at h
        simp [Dict.set, hk, ih h]

theorem Dict.pop_append_of_find_none {β : Type} (d : Dict β) (k : String) (v : β)
    (h : Dict.find d k = none) : Dict.pop (d ++ [(k, v)]) k = (some v, d) := by
  induction d with
  | nil => simp [Dict.pop]
  | cons p rest ih =>
      obtain ⟨k₁, v₁⟩ := p
      by_cases hk : k₁ = k
      · simp [Dict.find, hk] at h
      · simp [Dict.find, hk] at h
        simp [Dict.pop, hk, ih h]

theorem Dict.find_set_self {β : Type} (d : Dict β) (k : String) (v : β) :
    Dict.find (Dict.set d k v) k = some v := by
  induction d with
  | nil => simp [Dict.set, Dict.find]
  | cons p rest ih =>
      obtain ⟨k₁, v₁⟩ := p
      by_cases hk : k₁ = k
      · simp [Dict.set, Dict.find, hk]
      · simp [Dict.set, Dict.find, hk, ih]

/-- C2 counterexample: the transition Reconnecting to Connecting, an edge of
the spec graph, is rejected by _set_state with RuntimeError, while the
transitions Reconnecting to Connected and Disconnected to Reconnecting, which
are not edges of the spec graph, are accepted without raising. -/
theorem c2_set_state_violates_spec_graph :
    WebsocketTransport.set_state .reconnecting .connecting
      = .error (.runtimeError "Cannot connect while not disconnected") ∧
    WebsocketTransport.set_state .reconnecting .connected = .ok .connected ∧
    specEdge .reconnecting .connected = false ∧
    WebsocketTransport.set_state .disconnected .reconnecting = .ok .reconnecting ∧
    specEdge .disconnected .reconnecting = false :=
  ⟨rfl, rfl, rfl, rfl, rfl⟩

/-- C2 (amended): _set_state succeeds exactly on these pairs: staying in the
same state, Disconnected to Connecting, Connecting or Reconnecting to
Connected, and a move to Reconnecting or Disconnected from anywhere; every
other pair, including the spec edge Reconnecting to Connecting, raises. -/
theorem c2_set_state_characterization :
    ∀ old_state state : ConnectionState,
      (∃ s, WebsocketTransport.set_state old_state state = .ok s) ↔
        (state = old_state ∨
         (state = .connecting ∧ old_state = .disconnected) ∨
         (state = .connected ∧ (old_state = .connecting ∨ old_state = .reconnecting)) ∨
         state = .reconnecting ∨ state = .disconnected) := by
  intro a b
  cases a <;> cases b <;> simp [WebsocketTransport.set_state]

/-- C3 counterexample: a Completion whose result and error are unset is
serialized with the keys result and error bound to null, not with those keys
absent. -/
theorem c3_completion_unset_fields_serialized_as_null :
    Dict.find (Message.dump (Msg.completionMessage "x" .null .null .null).toObj).2 "result"
      = some .null ∧
    Dict.find (Message.dump (Msg.completionMessage "x" .null .null .null).toObj).2 "error"
      = some .null :=
  ⟨rfl, rfl⟩

/-- C3 (amended): for every message class, JSON serialization emits each
field other than invocation_id and stream_ids with its stored value, null
included when the field is unset — the full frame of every constructor equals
its closed form dumpFrameSpec, in which the optional fields headers, result,
error, allow_reconnect, item and arguments always appear; invocation_id and
stream_ids are the only fields whose keys are dropped; and a Completion with
unset result and error is serialized with result null and error null
alongside headers, type and invocationId. -/
theorem c3_null_emission_characterization :
    (∀ m : Msg, (Message.dump m.toObj).2 = dumpFrameSpec m) ∧
    (∀ (i : String) (h : JVal),
       (Message.dump (Msg.completionMessage i .null .null h).toObj).2
         = [("result", .null), ("error", .null), ("headers", h),
            ("type", .num 3), ("invocationId", .str i)]) ∧
    (∀ m : Msg,
       Dict.find (Message.dump m.toObj).2 "invocation_id" = none ∧
       Dict.find (Message.dump m.toObj).2 "stream_ids" = none) := by
  refine ⟨fun m => ?_, fun i h => rfl, fun m => ?_⟩
  · cases m <;> rfl
  · cases m <;> exact ⟨rfl, rfl⟩

/-- C4: with the default budget of 10 retries left, the first negotiation
failure drives run() into the retry branch, which raises NameError on the
unbound name self_retry_sleep instead of sleeping and retrying; moreover the
module defines DEFAULT_RETRY_WAIT but not the DEFAULT_RETRY_SLEEP referenced
by the constructor signature. -/
theorem c4_negotiation_retry_raises_nameError :
    WebsocketTransport.run_on_negotiation_failure 10 .negotiationFailure
      = (.nameError "self_retry_sleep", .disconnected) ∧
    Dict.find websocketModuleConstants "DEFAULT_RETRY_COUNT" = some 10 ∧
    Dict.find websocketModuleConstants "DEFAULT_RETRY_SLEEP" = none ∧
    Dict.find websocketModuleConstants "DEFAULT_RETRY_WAIT" = some 1 :=
  ⟨rfl, rfl, rfl, rfl⟩

/-- C5: a negotiate response with status 401 makes run() fail with
AuthorizationError for every response body and every remaining retry budget:
the error is not a negotiation error, so the retry branch does not catch it,
and the websocket connect call is never reached. -/
theorem c5_negotiate_401_authorization_error :
    ∀ (body : Dict JVal) (retry_count : Int),
      WebsocketTransport.run_negotiate_once 401 body retry_count
        = (.error .authorizationError, false) :=
  fun _ _ => rfl

/-- C6: after send registers a callback under a fresh invocation id x, a
first Completion for x invokes exactly that callback once and removes the
registry entry, and a second Completion for x raises KeyError. -/
theorem c6_completion_consumes_callback_once {α : Type} (x : String) (cb : α)
    (rest : Dict (Option α)) (error_callback : Option α)
    (hx : Dict.find rest x = none) :
    SignalRClient.on_completion_message error_callback
        (SignalRClient.send_register rest x (some cb)) ⟨x, none⟩
      = .ok (rest, [cb]) ∧
    SignalRClient.on_completion_message error_callback rest ⟨x, none⟩
      = .error .keyError := by
  constructor
  · unfold SignalRClient.on_completion_message SignalRClient.send_register
    rw [Dict.find_none_set _ _ _ hx]
    simp [SignalRClient.errTruthy, Dict.pop_append_of_find_none _ _ _ hx]
    rfl
  · unfold SignalRClient.on_completion_message
    simp [SignalRClient.errTruthy, Dict.find_none_pop _ _ hx]
    rfl

theorem c6_witness :
    SignalRClient.on_completion_message (none : Option Nat)
        (SignalRClient.send_register [] "x" (some 7)) ⟨"x", none⟩ = .ok ([], [7]) ∧
    SignalRClient.on_completion_message (none : Option Nat) [] ⟨"x", none⟩
      = .error .keyError :=
  c6_completion_consumes_callback_once "x" 7 [] none rfl

/-- C7: registering h1 and then h2 under the same event and dispatching an
Invocation with that target fires h1 before h2, each exactly once, after
whatever the previously registered handlers produce. -/
theorem c7_handlers_fire_in_registration_order {α : Type}
    (t : Dict (List (Option α))) (ev : String) (h₁ h₂ : α) (args : JVal) :
    SignalRClient.on_invocation_message
        (SignalRClient.on_register (SignalRClient.on_register t ev h₁) ev h₂) ev args
      = SignalRClient.on_invocation_message t ev args ++ [(h₁, args), (h₂, args)] := by
  unfold SignalRClient.on_invocation_message SignalRClient.on_register SignalRClient.handlersFor
  rw [Dict.find_set_self, Dict.find_set_self]
  simp

/-- C9: dump destructively rewrites the attribute dict of the message it is
called on: a set invocation_id or stream_ids binding disappears, the
camelCase key and the type tag appear, and the dict returned for
serialization is the same storage as the mutated attribute dict. -/
theorem c9_dump_mutates_message (m : Msg) (v : JVal) :
    ((Dict.find m.toObj.attrs "invocation_id" = some v ∧ v ≠ .null) →
       Dict.find (Message.dump m.toObj).1.attrs "invocation_id" = none ∧
       Dict.find (Message.dump m.toObj).1.attrs "invocationId" = some v ∧
       Dict.find (Message.dump m.toObj).1.attrs "type" = some (.num m.toObj.cls.tag)) ∧
    ((Dict.find m.toObj.attrs "stream_ids" = some v ∧ v ≠ .null) →
       Dict.find (Message.dump m.toObj).1.attrs "stream_ids" = none ∧
       Dict.find (Message.dump m.toObj).1.attrs "streamIds" = some v ∧
       Dict.find (Message.dump m.toObj).1.attrs "type" = some (.num m.toObj.cls.tag)) ∧
    (Message.dump m.toObj).1.attrs = (Message.dump m.toObj).2 := by
  cases m <;>
    refine ⟨fun hp => ?_, fun hp => ?_, rfl⟩ <;>
    · obtain ⟨hf, hv⟩ := hp
      first
        | (simp [Msg.toObj, Dict.find] at hf; subst hf; exact ⟨rfl, rfl, rfl⟩)
        | simp [Msg.toObj, Dict.find] at hf

theorem c9_witness :
    Dict.find (Message.dump (Msg.invocationMessage "abc" "T" .null .null).toObj).1.attrs
        "invocation_id" = none ∧
    Dict.find (Message.dump (Msg.invocationMessage "abc" "T" .null .null).toObj).1.attrs
        "invocationId" = some (.str "abc") ∧
    Dict.find (Message.dump (Msg.invocationMessage "abc" "T" .null .null).toObj).1.attrs
        "type" = some (.num (Msg.invocationMessage "abc" "T" .null .null).toObj.cls.tag) :=
  (c9_dump_mutates_message (Msg.invocationMessage "abc" "T" .null .null) (.str "abc")).1
    ⟨rfl, by decide⟩

/-- C10: dispatching a StreamItem or a CancelInvocation whose invocation id
has no entry in the stream-handler registry raises KeyError; there is no
graceful path for unknown stream ids. -/
theorem c10_unknown_stream_id_raises_keyError {α : Type}
    (stream_handlers : Dict (Option α × Option α × Option α)) (i : String) (item : JVal)
    (h : Dict.find stream_handlers i = none) :
    SignalRClient.on_stream_item_message stream_handlers i item = .error .keyError ∧
    SignalRClient.on_cancel_invocation_message stream_handlers i = .error .keyError := by
  constructor
  · simp [SignalRClient.on_stream_item_message, h]
  · simp [SignalRClient.on_cancel_invocation_message, h]

theorem splitFirst_of_not_mem (c : Char) (cs : List Char) (h : c ∉ cs) :
    splitFirst c cs = none := by
  induction cs with
  | nil => rfl
  | cons x xs ih =>
      simp only [List.mem_cons, not_or] at h
      simp [splitFirst, Ne.symm h.1, ih h.2]

theorem splitFirst_append_sep (c : Char) (xs ys : List Char) (h : c ∉ xs) :
    splitFirst c (xs ++ c :: ys) = some (xs, ys) := by
  induction xs with
  | nil => simp [splitFirst]
  | cons x xs ih =>
      simp only [List.mem_cons, not_or] at h
      simp [splitFirst, Ne.symm h.1, ih h.2]

theorem splitAll_of_not_mem (c : Char) (cs : List Char) (h : c ∉ cs) :
    splitAll c cs = [cs] := by
  induction cs with
  | nil => rfl
  | cons x xs ih =>
      simp only [List.mem_cons, not_or] at h
      simp [splitAll, Ne.symm h.1, ih h.2]

theorem splitAll_append_sep (c : Char) (xs ys : List Char) (h : c ∉ xs) :
    splitAll c (xs ++ c :: ys) = xs :: splitAll c ys := by
  induction xs with
  | nil => simp [splitAll]
  | cons x xs ih =>
      simp only [List.mem_cons, not_or] at h
      simp [splitAll, Ne.symm h.1, ih h.2]

theorem unquote_plus_of_safe (cs : List Char) (h : ∀ c ∈ cs, alwaysSafe c = true) :
    unquote_plus cs = cs := by
  induction cs with
  | nil => rfl
  | cons x xs ih =>
      have hx : x ≠ '+' := by
        intro he
        have := h x (List.mem_cons_self x xs)
        rw [he] at this
        exact absurd this (by decide)
      simp only [unquote_plus, List.map_cons, if_neg hx]
      have := ih (fun c hc => h c (List.mem_cons_of_mem x hc))
      simpa [unquote_plus] using this

theorem quote_plus_of_safe (s : String) (h : ∀ c ∈ s.data, alwaysSafe c = true) :
    quote_plus s = s := by
  suffices hl : ∀ cs : List Char, (∀ c ∈ cs, alwaysSafe c = true) →
      cs.foldr (fun c acc =>
        (if alwaysSafe c then [c]
         else if c = ' ' then ['+']
         else ['%', hexDigit (c.toNat / 16 % 16), hexDigit (c.toNat % 16)]) ++ acc) [] = cs by
    show String.mk _ = s
    rw [show s.toList = s.data from rfl, hl s.data h]
  intro cs hcs
  induction cs with
  | nil => rfl
  | cons x xs ih =>
      simp only [List.foldr_cons, hcs x (List.mem_cons_self x xs), if_true]
      rw [ih (fun c hc => hcs c (List.mem_cons_of_mem x hc))]
      rfl

theorem Dict.find_append_none {β : Type} (d₁ d₂ : Dict β) (k : String)
    (h₁ : Dict.find d₁ k = none) (h₂ : Dict.find d₂ k = none) :
    Dict.find (d₁ ++ d₂) k = none := by
  induction d₁ with
  | nil => simpa using h₂
  | cons p rest ih =>
      obtain ⟨k₁, v₁⟩ := p
      by_cases hk : k₁ = k
      · simp [Dict.find, hk] at h₁
      · simp [Dict.find, hk] at h₁ ⊢
        exact ih h₁

theorem Dict.find_none_of_keys {β : Type} (d : Dict β) (k : String)
    (h : ∀ p ∈ d, p.1 ≠ k) : Dict.find d k = none := by
  induction d with
  | nil => rfl
  | cons p rest ih =>
      simp [Dict.find, h p (List.mem_cons_self p rest)]
      exact ih (fun q hq => h q (List.mem_cons_of_mem p hq))

theorem c10_witness :
    SignalRClient.on_stream_item_message ([] : Dict (Option Nat × Option Nat × Option Nat))
        "z" (.num 1) = .error .keyError ∧
    SignalRClient.on_cancel_invocation_message
        ([] : Dict (Option Nat × Option Nat × Option Nat)) "z" = .error .keyError :=
  c10_unknown_stream_id_raises_keyError [] "z" (.num 1) rfl

theorem urlsplit_http_shape (q : String) (h1 : splitFirst '#' q.data = none) :
    urlsplit ("http://h/ev?" ++ q) = ⟨"http", "h", "/ev", q, ""⟩ := by
  unfold urlsplit
  rw [show ("http://h/ev?" ++ q).toList
      = 'h' :: 't' :: 't' :: 'p' :: ':' :: '/' :: '/' :: 'h' :: '/' :: 'e' :: 'v' :: '?' :: q.data
      from rfl]
  simp [splitFirst, takeUntilAny, h1, isSchemeChar]

theorem benign_not_mem (s : String) (hs : benignStr s) (c : Char)
    (hc : alwaysSafe c = false) : c ∉ s.data := by
  intro hm
  have := hs.2 c hm
  rw [hc] at this
  exact Bool.noConfusion this

theorem item_data (k v : String) : (k ++ "=" ++ v).data = k.data ++ '=' :: v.data := by
  rw [String.data_append, String.data_append, List.append_assoc]
  rfl

theorem item_ne_empty (k v : String) : k ++ "=" ++ v ≠ "" := by
  intro hh
  have := congrArg String.data hh
  rw [item_data] at this
  simp at this

theorem item_chars (k v : String) (hk : benignStr k) (hv : benignStr v) :
    ∀ c ∈ (k ++ "=" ++ v).data, c = '=' ∨ alwaysSafe c = true := by
  intro c hc
  rw [item_data] at hc
  rcases List.mem_append.mp hc with h | h
  · exact Or.inr (hk.2 c h)
  · rcases List.mem_cons.mp h with h | h
    · exact Or.inl h
    · exact Or.inr (hv.2 c h)

theorem amp_not_mem_item (k v : String) (hk : benignStr k) (hv : benignStr v) :
    '&' ∉ (k ++ "=" ++ v).data := by
  intro hm
  rcases item_chars k v hk hv '&' hm with h | h
  · exact absurd h (by decide)
  · exact absurd h (by decide)

theorem parse_qsl_single (k v : String) (hk : benignStr k) (hv : benignStr v) :
    parse_qsl (k ++ "=" ++ v) = [(k, v)] := by
  unfold parse_qsl
  rw [show (k ++ "=" ++ v).toList = (k ++ "=" ++ v).data from rfl]
  rw [splitAll_of_not_mem '&' _ (amp_not_mem_item k v hk hv)]
  rw [item_data]
  have hne : k.data ++ '=' :: v.data ≠ [] := by simp
  have hvne : v.data ≠ [] := by
    intro hh
    exact hv.1 (String.ext hh)
  simp only [List.filterMap_cons, List.filterMap_nil, if_neg hne,
    splitFirst_append_sep '=' _ _ (benign_not_mem k hk '=' (by decide)), if_neg hvne]
  rw [unquote_plus_of_safe _ hk.2, unquote_plus_of_safe _ hv.2]

theorem parse_qsl_cons (k v : String) (restQ : String)
    (hk : benignStr k) (hv : benignStr v) :
    parse_qsl ((k ++ "=" ++ v) ++ "&" ++ restQ) = (k, v) :: parse_qsl restQ := by
  unfold parse_qsl
  rw [show ((k ++ "=" ++ v) ++ "&" ++ restQ).toList
      = (k ++ "=" ++ v).data ++ '&' :: restQ.data from by
    rw [show ((k ++ "=" ++ v) ++ "&" ++ restQ).toList
        = ((k ++ "=" ++ v) ++ "&" ++ restQ).data from rfl]
    rw [String.data_append, String.data_append, List.append_assoc]
    rfl]
  rw [splitAll_append_sep '&' _ _ (amp_not_mem_item k v hk hv)]
  rw [item_data]
  have hne : k.data ++ '=' :: v.data ≠ [] := by simp
  have hvne : v.data ≠ [] := by
    intro hh
    exact hv.1 (String.ext hh)
  simp only [List.filterMap_cons, if_neg hne,
    splitFirst_append_sep '=' _ _ (benign_not_mem k hk '=' (by decide)), if_neg hvne]
  rw [unquote_plus_of_safe _ hk.2, unquote_plus_of_safe _ hv.2]
  rfl

theorem parse_qsl_plainQuery (kvs : List (String × String))
    (hb : ∀ p ∈ kvs, benignStr p.1 ∧ benignStr p.2) :
    parse_qsl (plainQuery kvs) = kvs := by
  induction kvs with
  | nil => rfl
  | cons p rest ih =>
      have hbp := hb p (List.mem_cons_self p rest)
      cases rest with
      | nil =>
          rw [show plainQuery [p] = p.1 ++ "=" ++ p.2 from rfl]
          rw [parse_qsl_single p.1 p.2 hbp.1 hbp.2]
      | cons q rest' =>
          rw [show plainQuery (p :: q :: rest')
              = (p.1 ++ "=" ++ p.2) ++ "&" ++ plainQuery (q :: rest') from rfl]
          rw [parse_qsl_cons p.1 p.2 _ hbp.1 hbp.2]
          rw [ih (fun r hr => hb r (List.mem_cons_of_mem p hr))]

theorem group_foldl (ps : List (String × String)) (d : Dict (List String))
    (hd : ∀ p ∈ ps, Dict.find d p.1 = none) (hnd : (ps.map Prod.fst).Nodup) :
    ps.foldl
      (fun d p =>
        match Dict.find d p.1 with
        | some vs => Dict.set d p.1 (vs ++ [p.2])
        | none => Dict.set d p.1 [p.2]) d
    = d ++ ps.map (fun p => (p.1, [p.2])) := by
  induction ps generalizing d with
  | nil => simp
  | cons p rest ih =>
      simp only [List.map_cons, List.nodup_cons] at hnd
      simp only [List.foldl_cons]
      rw [hd p (List.mem_cons_self p rest),
        Dict.find_none_set _ _ _ (hd p (List.mem_cons_self p rest))]
      rw [ih (d ++ [(p.1, [p.2])]) ?_ hnd.2]
      · simp
      · intro q hq
        refine Dict.find_append_none _ _ _ (hd q (List.mem_cons_of_mem p hq)) ?_
        have hqp : q.1 ≠ p.1 := by
          intro he
          exact hnd.1 (he ▸ List.mem_map_of_mem Prod.fst hq)
        simp [Dict.find, Ne.symm hqp]

theorem parse_qs_plainQuery (kvs : List (String × String))
    (hb : ∀ p ∈ kvs, benignStr p.1 ∧ benignStr p.2)
    (hnd : (kvs.map Prod.fst).Nodup) :
    parse_qs (plainQuery kvs) = kvs.map (fun p => (p.1, [p.2])) := by
  unfold parse_qs
  rw [parse_qsl_plainQuery kvs hb]
  have := group_foldl kvs [] (fun _ _ => rfl) hnd
  simpa using this

theorem flatten_singleton_map {γ δ : Type} (f : γ → δ) (l : List γ) :
    (l.map fun x => [f x]).flatten = l.map f := by
  induction l with
  | nil => rfl
  | cons x xs ih => simp [ih]

theorem urlencode_plain (kvs : List (String × String)) (ids : List String)
    (hb : ∀ p ∈ kvs, benignStr p.1 ∧ benignStr p.2)
    (hids : ∀ s ∈ ids, benignStr s) :
    urlencode_doseq (kvs.map (fun p => (p.1, [p.2])) ++ [("id", ids)])
      = plainQuery (kvs ++ ids.map (fun s => ("id", s))) := by
  unfold urlencode_doseq plainQuery
  congr 1
  rw [List.map_append, List.map_map, List.flatten_append, List.map_append, List.map_map]
  congr 1
  · rw [show ((fun kv : String × List String =>
          kv.2.map fun v => quote_plus kv.1 ++ "=" ++ quote_plus v) ∘
          fun p : String × String => (p.1, [p.2]))
        = fun p : String × String => [quote_plus p.1 ++ "=" ++ quote_plus p.2] from rfl]
    rw [flatten_singleton_map]
    refine List.map_congr_left ?_
    intro p hp
    rw [quote_plus_of_safe p.1 (hb p hp).1.2, quote_plus_of_safe p.2 (hb p hp).2.2]
  · simp only [List.map_cons, List.map_nil, List.flatten_cons, List.flatten_nil,
      List.append_nil]
    refine List.map_congr_left ?_
    intro s hs
    rw [show quote_plus "id" = "id" from rfl, quote_plus_of_safe s (hids s hs).2]
    rfl

theorem plainQuery_cons_ne_empty (p : String × String) (rest : List (String × String)) :
    plainQuery (p :: rest) ≠ "" := by
  cases rest with
  | nil => exact item_ne_empty p.1 p.2
  | cons q rest' =>
      show (p.1 ++ "=" ++ p.2) ++ "&" ++ plainQuery (q :: rest') ≠ ""
      intro hh
      have := congrArg String.data hh
      rw [String.data_append, String.data_append, item_data] at this
      simp at this

theorem plainQuery_no_hash (kvs : List (String × String))
    (hb : ∀ p ∈ kvs, benignStr p.1 ∧ benignStr p.2) :
    splitFirst '#' (plainQuery kvs).data = none := by
  refine splitFirst_of_not_mem '#' _ ?_
  induction kvs with
  | nil => simp [plainQuery, joinSep]
  | cons p rest ih =>
      have hbp := hb p (List.mem_cons_self p rest)
      cases rest with
      | nil =>
          intro hm
          rcases item_chars p.1 p.2 hbp.1 hbp.2 '#' hm with h | h
          · exact absurd h (by decide)
          · exact absurd h (by decide)
      | cons q rest' =>
          intro hm
          rw [show plainQuery (p :: q :: rest')
              = (p.1 ++ "=" ++ p.2) ++ "&" ++ plainQuery (q :: rest') from rfl] at hm
          rw [String.data_append, String.data_append] at hm
          rcases List.mem_append.mp hm with h | h
          · rcases List.mem_append.mp h with h | h
            · rcases item_chars p.1 p.2 hbp.1 hbp.2 '#' h with h | h
              · exact absurd h (by decide)
              · exact absurd h (by decide)
            · rcases List.mem_cons.mp h with h | h
              · exact absurd h (by decide)
              · exact absurd h (by simp)
          · exact ih (fun r hr => hb r (List.mem_cons_of_mem p hr)) h

theorem urlunsplit_ws_shape (qs : String) (hq : qs ≠ "") :
    urlunsplit ⟨"ws", "h", "/ev", qs, ""⟩ = "ws://h/ev?" ++ qs := by
  unfold urlunsplit
  simp [hq]

/-- C8 counterexample: get_connection_url leaves a non-http(s) scheme
untouched (the KeyError of the scheme table is suppressed), so the result is
not a ws(s) URL, and a query parameter with a blank value is dropped rather
than preserved. -/
theorem c8_connection_url_counterexample :
    get_connection_url "ftp://h/ev" ["1"] = "ftp://h/ev?id=1" ∧
    (urlsplit (get_connection_url "ftp://h/ev" ["1"])).scheme = "ftp" ∧
    get_connection_url "http://h/ev?foo=&bar=b" ["1"] = "ws://h/ev?bar=b&id=1" :=
  ⟨rfl, rfl, rfl⟩

/-- C8 (amended): the S5 example holds literally; the output scheme is ws(s)
exactly when the input scheme already was http(s) or ws(s), other schemes
passing through unchanged; and for every escaping-free query of distinct
non-blank parameters none of which is named id, the result rewrites the
query to the original parameters followed by one id=x per element x of ids,
coercing http to ws. -/
theorem c8_connection_url_characterization :
    (get_connection_url "http://h/ev?foo=bar" ["1", "2", "3"]
       = "ws://h/ev?foo=bar&id=1&id=2&id=3") ∧
    (∀ (r : SplitResult) (ids : List String),
       ((get_connection_url_split r ids).scheme = "ws" ∨
        (get_connection_url_split r ids).scheme = "wss") ↔
       (r.scheme = "http" ∨ r.scheme = "https" ∨ r.scheme = "ws" ∨ r.scheme = "wss")) ∧
    (∀ (kvs : List (String × String)) (ids : List String),
       kvs ≠ [] →
       (∀ p ∈ kvs, benignStr p.1 ∧ benignStr p.2) →
       (kvs.map Prod.fst).Nodup →
       (∀ p ∈ kvs, p.1 ≠ "id") →
       (∀ s ∈ ids, benignStr s) →
       get_connection_url ("http://h/ev?" ++ plainQuery kvs) ids
         = "ws://h/ev?" ++ plainQuery (kvs ++ ids.map (fun s => ("id", s)))) := by
  refine ⟨rfl, ?_, ?_⟩
  · intro r ids
    by_cases h1 : r.scheme = "http"
    · simp [get_connection_url_split, http_to_ws, h1]
    by_cases h2 : r.scheme = "https"
    · simp [get_connection_url_split, http_to_ws, h1, h2]
    by_cases h3 : r.scheme = "ws"
    · simp [get_connection_url_split, http_to_ws, h1, h2, h3]
    by_cases h4 : r.scheme = "wss"
    · simp [get_connection_url_split, http_to_ws, h1, h2, h3, h4]
    · simp [get_connection_url_split, http_to_ws, h1, h2, h3, h4]
  · intro kvs ids hne hb hnd hid hids
    obtain ⟨p, rest, rfl⟩ : ∃ p rest, kvs = p :: rest := by
      cases kvs with
      | nil => exact absurd rfl hne
      | cons p rest => exact ⟨p, rest, rfl⟩
    unfold get_connection_url
    rw [urlsplit_http_shape _ (plainQuery_no_hash _ hb)]
    rw [show get_connection_url_split ⟨"http", "h", "/ev", plainQuery (p :: rest), ""⟩ ids
        = ⟨"ws", "h", "/ev",
            urlencode_doseq (Dict.set (parse_qs (plainQuery (p :: rest))) "id" ids), ""⟩
        from rfl]
    rw [parse_qs_plainQuery _ hb hnd]
    have hfind : Dict.find (List.map (fun p => (p.1, [p.2])) (p :: rest)) "id" = none := by
      refine Dict.find_none_of_keys _ _ ?_
      intro pr hpr
      obtain ⟨p', hp', rfl⟩ := List.mem_map.mp hpr
      exact hid p' hp'
    rw [Dict.find_none_set _ _ _ hfind]
    rw [urlencode_plain _ _ hb hids]
    exact urlunsplit_ws_shape _ (by
      rw [show (p :: rest) ++ ids.map (fun s => ("id", s))
          = p :: (rest ++ ids.map (fun s => ("id", s))) from rfl]
      exact plainQuery_cons_ne_empty _ _)

theorem c8_witness :
    get_connection_url ("http://h/ev?" ++ plainQuery [("foo", "bar")]) ["1", "2"]
      = "ws://h/ev?" ++ plainQuery ([("foo", "bar")] ++ ["1", "2"].map (fun s => ("id", s))) :=
  c8_connection_url_characterization.2.2 [("foo", "bar")] ["1", "2"]
    (by decide) (by decide) (by decide) (by decide) (by decide)

end PySignalR
